import Mathlib

set_option maxHeartbeats 1000000

/-!
Verification of the core of `discord-rpc-bridge` (src/main.go): a shallow
embedding of the name normalizer, game catalog, process scanner, IPC codec
and the Bridge Loop's connection state machine, together with proofs of the
spec's testable properties.

Bytes are modelled as `Nat` values (the encoder only produces values < 256),
strings as Lean `String` (a list of characters; the paths and names involved
are ASCII), machine integers as `Int`/`Nat` with explicit reduction mod 2^32
where Go truncates.
-/

/-! ## IPC codec (src/main.go: sendIPCPacket lines 169-186, readIpcResponse lines 146-166) -/

/-- Little-endian byte decomposition of the low 32 bits of `n`, as written by
Go's `binary.Write(buf, binary.LittleEndian, int32 v)`. -/
def toLE4 (n : Nat) : List Nat :=
  [n % 256, n / 256 % 256, n / 65536 % 256, n / 16777216 % 256]

/-- Little-endian 32-bit read: value of the first four bytes, as done by
`binary.LittleEndian.Uint32`. Bytes beyond the fourth are ignored; fewer than
four bytes yield 0 (never happens on the 4-byte slices the code passes). -/
def fromLE4 : List Nat → Nat
  | b0 :: b1 :: b2 :: b3 :: _ => b0 + 256 * b1 + 65536 * b2 + 16777216 * b3
  | _ => 0

/-- The unsigned 32-bit pattern of `i`, i.e. the bytes Go emits for `int32(i)`
(two's complement, truncating). -/
def uint32ofInt (i : Int) : Nat := (i % 4294967296).toNat

/-- Bytes of `int32(i)` written little-endian. -/
def int32ToLE (i : Int) : List Nat := toLE4 (uint32ofInt i)

/-- Signed interpretation of an unsigned 32-bit value (how an `int32` opcode
field would read back). -/
def sint32 (n : Nat) : Int :=
  if n < 2147483648 then (n : Int) else (n : Int) - 4294967296

/-- The exact byte sequence `sendIPCPacket` writes to the socket:
`int32(opcode)` little-endian, then `int32(len(payload))` little-endian,
then the raw payload bytes. -/
def encodeFrame (opcode : Int) (payload : List Nat) : List Nat :=
  int32ToLE opcode ++ int32ToLE (payload.length : Int) ++ payload

/-- Frame decoding as performed by `readIpcResponse`: read an 8-byte header,
take the last 4 header bytes as a little-endian unsigned length, then read
exactly that many payload bytes; the first 4 header bytes hold the opcode
(the wire layout written by `sendIPCPacket`), read back as a signed int32.
`none` when the stream is too short. -/
def decodeFrame (stream : List Nat) : Option (Int × List Nat) :=
  match stream with
  | b0 :: b1 :: b2 :: b3 :: b4 :: b5 :: b6 :: b7 :: rest =>
    let dataLen := fromLE4 [b4, b5, b6, b7]
    if rest.length < dataLen then none
    else some (sint32 (fromLE4 [b0, b1, b2, b3]), rest.take dataLen)
  | _ => none

theorem fromLE4_toLE4 (n : Nat) : fromLE4 (toLE4 n) = n % 4294967296 := by
  simp only [toLE4, fromLE4]
  omega

theorem sint32_uint32ofInt (i : Int) (h1 : -2147483648 ≤ i) (h2 : i < 2147483648) :
    sint32 (uint32ofInt i) = i := by
  simp only [sint32, uint32ofInt]
  split <;> omega

theorem uint32ofInt_lt (i : Int) : uint32ofInt i < 4294967296 := by
  simp only [uint32ofInt]
  omega

theorem uint32ofInt_ofNat (n : Nat) (h : n < 4294967296) :
    uint32ofInt (n : Int) = n := by
  simp only [uint32ofInt]
  omega

theorem encodeFrame_cons (opcode : Int) (payload : List Nat) :
    encodeFrame opcode payload =
      uint32ofInt opcode % 256 :: uint32ofInt opcode / 256 % 256 ::
      uint32ofInt opcode / 65536 % 256 :: uint32ofInt opcode / 16777216 % 256 ::
      uint32ofInt (payload.length : Int) % 256 ::
      uint32ofInt (payload.length : Int) / 256 % 256 ::
      uint32ofInt (payload.length : Int) / 65536 % 256 ::
      uint32ofInt (payload.length : Int) / 16777216 % 256 :: payload := by
  simp [encodeFrame, int32ToLE, toLE4]

/-- C3 (amended): for every opcode in the signed 32-bit range and every body
of byte length below 2^32, decoding the frame produced by `encodeFrame`
yields back exactly the opcode and body, and the frame's length field (bytes
4..8) holds exactly the body's byte length. (For bodies of length ≥ 2^32 the
32-bit length field truncates and the round trip fails, see the
counterexample.) -/
theorem encode_decode_roundtrip (opcode : Int) (body : List Nat)
    (h1 : -2147483648 ≤ opcode) (h2 : opcode < 2147483648)
    (h3 : body.length < 4294967296) :
    decodeFrame (encodeFrame opcode body) = some (opcode, body) ∧
    fromLE4 ((encodeFrame opcode body).drop 4) = body.length := by
  have hlen : fromLE4 (toLE4 (uint32ofInt (body.length : Int))) = body.length := by
    rw [fromLE4_toLE4, uint32ofInt_ofNat body.length h3]
    omega
  constructor
  · rw [encodeFrame_cons, decodeFrame]
    have hd : fromLE4
        [uint32ofInt (body.length : Int) % 256,
         uint32ofInt (body.length : Int) / 256 % 256,
         uint32ofInt (body.length : Int) / 65536 % 256,
         uint32ofInt (body.length : Int) / 16777216 % 256] = body.length := hlen
    have hop : fromLE4
        [uint32ofInt opcode % 256, uint32ofInt opcode / 256 % 256,
         uint32ofInt opcode / 65536 % 256, uint32ofInt opcode / 16777216 % 256]
        = uint32ofInt opcode := by
      rw [show [uint32ofInt opcode % 256, uint32ofInt opcode / 256 % 256,
         uint32ofInt opcode / 65536 % 256, uint32ofInt opcode / 16777216 % 256]
         = toLE4 (uint32ofInt opcode) from rfl]
      rw [fromLE4_toLE4]
      exact Nat.mod_eq_of_lt (uint32ofInt_lt opcode)
    simp only [hd, hop, Nat.lt_irrefl, if_false, List.take_length,
      sint32_uint32ofInt opcode h1 h2]
  · rw [encodeFrame_cons]
    simpa using hlen

/-- C3 witness: the round trip at opcode 1 and body [7, 8, 9]. -/
theorem encode_decode_roundtrip_witness :
    decodeFrame (encodeFrame 1 [7, 8, 9]) = some (1, [7, 8, 9]) ∧
    fromLE4 ((encodeFrame 1 [7, 8, 9]).drop 4) = 3 :=
  encode_decode_roundtrip 1 [7, 8, 9] (by decide) (by decide) (by decide)

/-- C3 counterexample: the round trip as stated in the claim fails for a body
of 2^32 bytes — the `int32` length field truncates to 0, so decoding returns
an empty body. -/
theorem encode_decode_roundtrip_cex :
    decodeFrame (encodeFrame 0 (List.replicate 4294967296 0)) ≠
      some (0, List.replicate 4294967296 0) := by
  intro h
  have hlen : (List.replicate 4294967296 (0 : Nat)).length = 4294967296 :=
    List.length_replicate _ _
  rw [encodeFrame_cons] at h
  rw [hlen] at h
  have h32 : uint32ofInt ((4294967296 : Nat) : Int) = 0 := by
    simp only [uint32ofInt]
    omega
  rw [h32] at h
  rw [show uint32ofInt (0 : Int) = 0 from by decide] at h
  norm_num [decodeFrame, fromLE4, sint32, hlen] at h

/-! ## Name normalizer (src/main.go: normalizeGameName lines 189-192) -/

/-- The character class kept by the regex replacement `[^a-z0-9] -> ""`:
lower-case ASCII letters and digits. -/
def isLowerAlnum (c : Char) : Bool :=
  (97 ≤ c.toNat && c.toNat ≤ 122) || (48 ≤ c.toNat && c.toNat ≤ 57)

/-- `normalizeGameName`: lower-case the input (Go `strings.ToLower`; modelled
on the ASCII range, which is all the catalog keys and Steam folder names
use), then strip every character outside `[a-z0-9]`. -/
def normalizeGameName (input : String) : String :=
  String.mk ((input.toList.map Char.toLower).filter isLowerAlnum)

theorem toLower_of_isLowerAlnum (c : Char) (h : isLowerAlnum c = true) :
    Char.toLower c = c := by
  simp only [isLowerAlnum, Bool.or_eq_true, Bool.and_eq_true,
    decide_eq_true_eq] at h
  simp only [Char.toLower]
  rw [if_neg]
  omega

theorem filter_map_toLower_fixed (l : List Char) :
    ((l.filter isLowerAlnum).map Char.toLower).filter isLowerAlnum
      = l.filter isLowerAlnum := by
  induction l with
  | nil => rfl
  | cons c t ih =>
    by_cases h : isLowerAlnum c = true
    · simp only [List.filter_cons, h, if_pos, List.map_cons,
        toLower_of_isLowerAlnum c h, ih]
    · simp only [List.filter_cons, Bool.not_eq_true] at *
      simp [h, ih]

/-- C9: `normalizeGameName` is idempotent — normalizing an already
normalized string changes nothing, for every input string. -/
theorem normalizeGameName_idempotent (x : String) :
    normalizeGameName (normalizeGameName x) = normalizeGameName x := by
  simp only [normalizeGameName]
  exact congrArg String.mk (filter_map_toLower_fixed (x.toList.map Char.toLower))

/-! ## Game catalog (src/main.go: populateMap lines 83-88, resolveClientID
lines 195-201) -/

/-- A detectable application entry of the Discord catalog JSON. -/
structure Executable where
  name : String
  os : String
deriving DecidableEq

structure DetectableApp where
  ID : String
  Name : String
  Executables : List Executable
deriving DecidableEq

/-- `populateMap`: builds the `nameToID` lookup, inserting each app under the
key `normalizeGameName(app.Name)`. Modelled as a lookup function; as with a
Go map, a later insert of the same key overwrites an earlier one. -/
def populateMap (apps : List DetectableApp) : String → Option String :=
  apps.foldl
    (fun m app => fun k =>
      if k == normalizeGameName app.Name then some app.ID else m k)
    (fun _ => none)

/-- `resolveClientID`: look the normalized name up in `nameToID`; unknown
names resolve to the all-zero sentinel identifier. -/
def resolveClientID (nameToID : String → Option String) (name : String) : String :=
  match nameToID (normalizeGameName name) with
  | some id => id
  | none => "000000000000000000"

/-- C4: for every catalog built by `populateMap` and every name: if an entry
is stored under the key `normalizeGameName name`, resolving `name` returns
exactly the stored identifier; if no entry is stored under that key,
resolving returns the fixed sentinel "000000000000000000" — never an absent
value and never an arbitrary registered identifier. -/
theorem resolveClientID_returns_stored (apps : List DetectableApp) (name : String) :
    (∀ id, populateMap apps (normalizeGameName name) = some id →
      resolveClientID (populateMap apps) name = id) ∧
    (populateMap apps (normalizeGameName name) = none →
      resolveClientID (populateMap apps) name = "000000000000000000") := by
  constructor
  · intro id h
    simp only [resolveClientID, h]
  · intro h
    simp only [resolveClientID, h]

/-- C4 witness: a catalog holding Balatro resolves "Balatro" to its stored
identifier. -/
theorem resolveClientID_returns_stored_witness :
    resolveClientID (populateMap [⟨"1209665818464358430", "Balatro", []⟩]) "Balatro"
      = "1209665818464358430" :=
  (resolveClientID_returns_stored [⟨"1209665818464358430", "Balatro", []⟩] "Balatro").1
    "1209665818464358430" (by decide)

/-! ## Process scanner (src/main.go: extractSteamGameName lines 228-245,
scanCmdline lines 248-268, scanProcesses lines 271-307) -/

/-- Whether `need` occurs at the head of `hay` (`strings.HasPrefix` style
helper for the substring search of `strings.Index`). -/
def startsWithL : List Char → List Char → Bool
  | _, [] => true
  | [], _ :: _ => false
  | h :: hs, n :: ns => h == n && startsWithL hs ns

/-- `strings.Index`: position of the first occurrence of `need` in `hay`,
`none` when absent (Go returns -1). Positions are counted in characters;
since the needle used ("steamapps/common") is ASCII, occurrences in any
valid UTF-8 path begin on a character boundary and the arithmetic agrees
with Go's byte offsets for everything at or after the match. -/
def indexOfSub : List Char → List Char → Option Nat
  | hay, need =>
    match hay with
    | [] => if need.isEmpty then some 0 else none
    | _ :: t =>
      if startsWithL hay need then some 0
      else (indexOfSub t need).map (· + 1)

/-- `extractSteamGameName`: find the literal segment "steamapps/common" in a
path, strip everything up to and including it, trim one leading '/'
(`filepath.Separator` on Linux), and return the first remaining path
component ( `strings.SplitN(name, "/", 2)[0]` ). Empty string when the
segment does not occur. -/
def extractSteamGameName (fullPath : String) : String :=
  match indexOfSub fullPath.toList "steamapps/common".toList with
  | none => ""
  | some idx =>
    let rest := fullPath.toList.drop (idx + 16)
    let rest := match rest with
      | '/' :: t => t
      | l => l
    String.mk (rest.takeWhile (fun c => c != '/'))

/-- One process-table entry as the scanner observes it: the directory name
under /proc, whether it is a directory, the target of the /proc/pid/exe
symlink (`none` = Readlink error), and the NUL-separated argument list of
/proc/pid/cmdline (`none` = ReadFile error). -/
structure ProcEntry where
  name : String
  isDir : Bool
  exe : Option String
  cmdline : Option (List String)
deriving DecidableEq

/-- The first character of the entry name is an ASCII decimal digit — the
filter `pidStr[0] < '0' || pidStr[0] > '9'` of scanProcesses. (Go indexes
byte 0, which panics on an empty name; `os.ReadDir` never produces one, and
the model treats an empty name as filtered out.) -/
def firstCharDigit (s : String) : Bool :=
  match s.toList with
  | [] => false
  | c :: _ => 48 ≤ c.toNat && c.toNat ≤ 57

/-- `fmt.Sscanf(pidStr, "%d", &pid)` at the scanner's call sites: the value
of the longest run of leading decimal digits (0 when the name does not start
with a digit; the scan error is discarded by the code). -/
def digitsVal : List Char → Nat → Nat
  | [], acc => acc
  | c :: cs, acc =>
    if 48 ≤ c.toNat && c.toNat ≤ 57 then digitsVal cs (acc * 10 + (c.toNat - 48))
    else acc

def sscanfD (s : String) : Int := (digitsVal s.toList 0 : Int)

/-- `scanCmdline`'s argument loop: skip empty arguments, extract the Steam
folder name from each argument path, return the first hit that is nonempty
and not ignored. -/
def scanArgs (ignored : String → Bool) : List String → String
  | [] => ""
  | arg :: rest =>
    if arg == "" then scanArgs ignored rest
    else
      let name := extractSteamGameName arg
      if name != "" && !ignored name then name else scanArgs ignored rest

/-- `scanCmdline`: a ReadFile error yields "", otherwise scan the argument
list. -/
def scanCmdline (ignored : String → Bool) (cmdline : Option (List String)) : String :=
  match cmdline with
  | none => ""
  | some args => scanArgs ignored args

/-- `scanProcesses`: walk the table in order; skip non-directories and names
whose first character is not a digit; try the exe symlink (a Readlink error
behaves like no candidate), then the cmdline fallback; return the first
candidate that is nonempty and not ignored, with the pid parsed from the
entry name. `("", 0)` when nothing matches. -/
def scanProcesses (ignored : String → Bool) : List ProcEntry → String × Int
  | [] => ("", 0)
  | e :: rest =>
    if !e.isDir then scanProcesses ignored rest
    else if !firstCharDigit e.name then scanProcesses ignored rest
    else
      let exeName := match e.exe with
        | some p => extractSteamGameName p
        | none => ""
      if exeName != "" && !ignored exeName then (exeName, sscanfD e.name)
      else
        let n := scanCmdline ignored e.cmdline
        if n != "" && !ignored n then (n, sscanfD e.name)
        else scanProcesses ignored rest

/-- The default `ignoredGames` set of src/main.go (before config merging). -/
def ignoredGames (name : String) : Bool :=
  name == "SteamLinuxRuntime_soldier" ||
  name == "SteamLinuxRuntime_sniper" ||
  name == "SteamLinuxRuntime"

/-- C5: for every ignore set and every process-table state (covering both the
executable-link path and the cmdline fallback), the scan never returns a name
from the ignore set: it returns either no game at all (`("", 0)`) or a
non-ignored name. -/
theorem scanProcesses_never_ignored (ignored : String → Bool)
    (entries : List ProcEntry) :
    scanProcesses ignored entries = ("", 0) ∨
    ignored (scanProcesses ignored entries).1 = false := by
  induction entries with
  | nil => left; rfl
  | cons e rest ih =>
    by_cases hd : e.isDir
    · by_cases hf : firstCharDigit e.name
      · simp only [scanProcesses, hd, hf, Bool.not_true, Bool.false_eq_true,
          if_false]
        by_cases hx : ((match e.exe with
            | some p => extractSteamGameName p
            | none => "") != "" &&
            !ignored (match e.exe with
            | some p => extractSteamGameName p
            | none => "")) = true
        · rw [if_pos hx]
          right
          have := (Bool.and_eq_true _ _).mp hx
          simpa using this.2
        · rw [if_neg hx]
          by_cases hc : ((scanCmdline ignored e.cmdline != "") &&
              !ignored (scanCmdline ignored e.cmdline)) = true
          · rw [if_pos hc]
            right
            have := (Bool.and_eq_true _ _).mp hc
            simpa using this.2
          · rw [if_neg hc]
            exact ih
      · simpa only [scanProcesses, hd, hf, Bool.not_true, Bool.not_false,
          if_true, Bool.false_eq_true, if_false] using ih
    · simpa only [scanProcesses, hd, Bool.not_false, if_true] using ih

/-- C8 counterexample: the claim says only purely numeric names can
contribute, but the code checks just the first character — a directory entry
named "1x" with a Steam exe path does produce a DetectedGame (with pid 1
parsed from the leading digit). -/
theorem scanProcesses_numeric_cex :
    scanProcesses ignoredGames
      [⟨"1x", true, some "/home/u/steamapps/common/Foo/foo.exe", none⟩]
      = ("Foo", 1) ∧
    ("1x".toList.all Char.isDigit) = false := by
  constructor
  · decide
  · decide

/-- C8 (amended): the scan's per-entry filter keeps exactly the directory
entries whose name starts with a decimal digit: removing every other entry
from the table never changes the scan's result. (Entries whose name merely
starts with a digit, such as "1x", are not filtered out; the pid is then
parsed from the name's leading digits.) -/
theorem scanProcesses_first_char_filter (ignored : String → Bool)
    (entries : List ProcEntry) :
    scanProcesses ignored entries
      = scanProcesses ignored
          (entries.filter fun e => e.isDir && firstCharDigit e.name) := by
  induction entries with
  | nil => rfl
  | cons e rest ih =>
    by_cases hd : e.isDir
    · by_cases hf : firstCharDigit e.name
      · have hfil : (e :: rest).filter (fun e => e.isDir && firstCharDigit e.name)
            = e :: rest.filter (fun e => e.isDir && firstCharDigit e.name) := by
          simp [List.filter_cons, hd, hf]
        rw [hfil]
        simp only [scanProcesses, hd, hf, Bool.not_true, Bool.false_eq_true,
          if_false]
        split
        · rfl
        · split
          · rfl
          · exact ih
      · have hfil : (e :: rest).filter (fun e => e.isDir && firstCharDigit e.name)
            = rest.filter (fun e => e.isDir && firstCharDigit e.name) := by
          simp [List.filter_cons, hd, hf]
        rw [hfil]
        simpa only [scanProcesses, hd, hf, Bool.not_true, Bool.not_false,
          if_true, Bool.false_eq_true, if_false] using ih
    · have hfil : (e :: rest).filter (fun e => e.isDir && firstCharDigit e.name)
          = rest.filter (fun e => e.isDir && firstCharDigit e.name) := by
        simp [List.filter_cons, hd]
      rw [hfil]
      simpa only [scanProcesses, hd, Bool.not_false, if_true] using ih

/-! ## IPC payloads and connection (src/main.go: structs lines 53-80,
readIpcResponse lines 146-166, connectIPC lines 204-225, setActivity lines
344-368) -/

structure ActivityAssets where
  LargeImage : String
  LargeText : String
deriving DecidableEq

structure Activity where
  Details : String
  State : String
  Assets : ActivityAssets
deriving DecidableEq

structure ActivityArgs where
  Pid : Int
  Activity : Activity
deriving DecidableEq

structure IpcHandshake where
  V : Int
  ClientID : String
deriving DecidableEq

structure DiscordRpcPayload where
  Cmd : String
  Nonce : String
  Args : ActivityArgs
deriving DecidableEq

/-- The JSON body a frame carries (the code marshals these structs; the
fields, not the byte serialization, are what the claims are about). -/
inductive IpcPayload where
  | handshake (h : IpcHandshake)
  | rpc (p : DiscordRpcPayload)
deriving DecidableEq

/-- One frame as passed to `sendIPCPacket`: opcode plus structured body. -/
structure SentFrame where
  opcode : Int
  payload : IpcPayload
deriving DecidableEq

/-- The outcomes of the socket operations a single `connectIPC` call
performs, supplied by the environment: whether `net.Dial` succeeds, whether
the handshake write succeeds, and the results of the two reads of
`readIpcResponse` (`none` = read error). -/
structure NetOutcome where
  dialOk : Bool
  writeOk : Bool
  readHeader : Option (List Nat)
  readPayload : Option (List Nat)
deriving DecidableEq

/-- `readIpcResponse`: read the 8-byte header, then the payload; any read
error is only logged (the function returns nothing to its caller). The
result models what gets logged: the response payload, or `none` when a read
failed. -/
def readIpcResponse (readHeader readPayload : Option (List Nat)) :
    Option (List Nat) :=
  match readHeader with
  | none => none
  | some _ =>
    match readPayload with
    | none => none
    | some payload => some payload

/-- `connectIPC`: dial the socket; on success send the opcode-0 handshake
frame `{V: 1, ClientID: clientID}`; on write failure close and fail. The
handshake response is read and logged by `readIpcResponse` but its outcome
is discarded — the connection is returned as a success regardless. Result:
(connection handle carrying the handshake identifier | `none` on failure,
frames successfully written, logged response). -/
def connectIPC (path clientID : String) (io : NetOutcome) :
    Option String × List SentFrame × Option (List Nat) :=
  if !io.dialOk then (none, [], none)
  else if !io.writeOk then (none, [], none)
  else
    (some clientID, [⟨0, IpcPayload.handshake ⟨1, clientID⟩⟩],
     readIpcResponse io.readHeader io.readPayload)

/-- C10: whenever the dial and the handshake write both succeed, `connectIPC`
returns the open connection as a success and the handshake frame as written,
for every outcome of the response reads — a response-read failure is never
reported to the Bridge Loop as a connect failure. -/
theorem connectIPC_ignores_read (path clientID : String)
    (readHeader readPayload : Option (List Nat)) :
    (connectIPC path clientID ⟨true, true, readHeader, readPayload⟩).1
      = some clientID ∧
    (connectIPC path clientID ⟨true, true, readHeader, readPayload⟩).2.1
      = [⟨0, IpcPayload.handshake ⟨1, clientID⟩⟩] := by
  constructor <;> rfl

/-- `setActivity`: the opcode-1 frame carrying the SET_ACTIVITY command for
`appName`/`pid`; an empty name yields the zero-value (empty) activity. The
nonce is the formatted wall-clock timestamp, supplied as an input. -/
def setActivity (appName : String) (pid : Int) (osRelease : String)
    (nonce : String) : SentFrame :=
  ⟨1, IpcPayload.rpc ⟨"SET_ACTIVITY", nonce,
    ⟨pid,
      if appName != "" then
        ⟨"Playing " ++ appName, "On " ++ osRelease, ⟨"default", appName⟩⟩
      else ⟨"", "", ⟨"", ""⟩⟩⟩⟩⟩

/-! ## Bridge Loop (src/main.go: main, loop body lines 421-465) -/

/-- The Session: the loop's mutable locals. `ipcConn` is the live connection
handle, carrying the identifier it was handshaken with (`none` = nil);
`openConns` counts every connection handle opened and not yet closed, so
leak freedom ("at most one live handle") is checkable. -/
structure BridgeState where
  socketPath : String
  currentClientID : String
  ipcConn : Option String
  openConns : Int
deriving DecidableEq

/-- The environment of one tick: the scanner's result (`("", 0)` = no game),
the result a `findDiscordSocket` re-probe would return ("" = not found), the
socket outcomes for a connect attempt, and the activity nonce. -/
structure TickInput where
  detected : String × Int
  probe : String
  io : NetOutcome
  nonce : String
deriving DecidableEq

/-- What one tick did: frames successfully written (in order), number of
`connectIPC` calls, number of loop-level closes of the session's
connection. -/
structure TickOutput where
  frames : List SentFrame
  connectAttempts : Nat
  disconnects : Nat
deriving DecidableEq

/-- One iteration of the Bridge Loop (src/main.go lines 421-465):
no game → close the connection if any (and clear `currentClientID`);
otherwise resolve the target identifier, disconnect if connected under a
different one, re-probe the socket path if unset, attempt `connectIPC` when
disconnected (on failure, `continue` — no activity update this tick), and
finally send the activity update when connected. -/
def tick (nameToID : String → Option String) (osRelease : String)
    (inp : TickInput) (s : BridgeState) : BridgeState × TickOutput :=
  if inp.detected.1 == "" then
    if s.ipcConn.isSome then
      (⟨s.socketPath, "", none, s.openConns - 1⟩, ⟨[], 0, 1⟩)
    else (s, ⟨[], 0, 0⟩)
  else
    let targetClientID := resolveClientID nameToID inp.detected.1
    let switching := s.ipcConn.isSome && (s.currentClientID != targetClientID)
    let s1 : BridgeState :=
      if switching then
        ⟨s.socketPath, s.currentClientID, none, s.openConns - 1⟩
      else s
    let d1 : Nat := if switching then 1 else 0
    if s1.ipcConn.isSome then
      (s1, ⟨[setActivity inp.detected.1 inp.detected.2 osRelease inp.nonce],
            0, d1⟩)
    else
      let path := if s1.socketPath == "" then inp.probe else s1.socketPath
      if path != "" then
        match connectIPC path targetClientID inp.io with
        | (some conn, frames, _) =>
          (⟨path, targetClientID, some conn, s1.openConns + 1⟩,
           ⟨frames ++ [setActivity inp.detected.1 inp.detected.2 osRelease inp.nonce],
            1, d1⟩)
        | (none, frames, _) =>
          (⟨path, s1.currentClientID, none, s1.openConns⟩, ⟨frames, 1, d1⟩)
      else
        (⟨path, s1.currentClientID, none, s1.openConns⟩, ⟨[], 0, d1⟩)

/-- The Bridge Loop run over a list of tick environments, returning the
state after each tick together with that tick's output. -/
def runTicks (nameToID : String → Option String) (osRelease : String)
    (s : BridgeState) : List TickInput → List (BridgeState × TickOutput)
  | [] => []
  | inp :: rest =>
    let r := tick nameToID osRelease inp s
    r :: runTicks nameToID osRelease r.1 rest

/-- The catalog of the end-to-end scenario: maps exactly the normalized key
"balatro" to Balatro's protocol identifier. -/
def balatroCatalog : String → Option String :=
  fun k => if k == "balatro" then some "1209665818464358430" else none

/-- C6: with the catalog mapping "balatro" to "1209665818464358430" and the
scanner detecting ("Balatro", 4321), one tick from the Disconnected state
sends the opcode-0 handshake frame carrying client_id "1209665818464358430"
followed by the opcode-1 command frame whose args.pid is 4321 and whose
activity.details is "Playing Balatro". -/
theorem balatro_end_to_end :
    balatroCatalog "balatro" = some "1209665818464358430" ∧
    (tick balatroCatalog "Fedora Linux 43"
        ⟨("Balatro", 4321), "", ⟨true, true, none, none⟩, "nonce-1"⟩
        ⟨"/run/user/1000/discord-ipc-0", "", none, 0⟩).2.frames
      = [⟨0, IpcPayload.handshake ⟨1, "1209665818464358430"⟩⟩,
         ⟨1, IpcPayload.rpc ⟨"SET_ACTIVITY", "nonce-1",
            ⟨4321, ⟨"Playing Balatro", "On Fedora Linux 43",
                    ⟨"default", "Balatro"⟩⟩⟩⟩⟩] := by
  constructor
  · decide
  · decide

/-- The session invariant that actually holds: the number of open connection
handles is 1 when `ipcConn` is set and 0 otherwise (so at most one live
handle ever exists), and a live connection always carries exactly
`currentClientID` as its handshake identifier. -/
def SessionInv (s : BridgeState) : Prop :=
  s.openConns = (if s.ipcConn.isSome then 1 else 0) ∧
  (∀ cid, s.ipcConn = some cid → s.currentClientID = cid)


theorem sessionInv_tick (nameToID : String → Option String) (osRelease : String)
    (inp : TickInput) (s : BridgeState) (h : SessionInv s) :
    SessionInv (tick nameToID osRelease inp s).1 := by
  obtain ⟨h1, h2⟩ := h
  rcases s with ⟨sp, cid0, conn0, oc⟩
  rcases inp with ⟨⟨g, pid⟩, probe, ⟨d, w, rh, rp⟩, nonce⟩
  cases conn0 with
  | none =>
    simp only [Option.isSome_none, Bool.false_eq_true, if_false] at h1
    cases d <;> cases w <;>
      simp_all [tick, connectIPC, SessionInv] <;>
      split_ifs <;> simp_all
  | some c =>
    have hc : cid0 = c := h2 c rfl
    simp only [Option.isSome_some, if_true] at h1
    cases d <;> cases w <;>
      simp_all [tick, connectIPC, SessionInv] <;>
      split_ifs <;> simp_all

theorem sessionInv_runTicks (nameToID : String → Option String)
    (osRelease : String) (inputs : List TickInput) :
    ∀ s : BridgeState, SessionInv s →
      ∀ p ∈ runTicks nameToID osRelease s inputs, SessionInv p.1 := by
  induction inputs with
  | nil => intro s _ p hp; cases hp
  | cons inp rest ih =>
    intro s hs p hp
    rcases List.mem_cons.mp hp with h | h
    · rw [h]
      exact sessionInv_tick nameToID osRelease inp s hs
    · exact ih (tick nameToID osRelease inp s).1
        (sessionInv_tick nameToID osRelease inp s hs) p h

/-- C1 (amended): across every Bridge Loop tick, at most one live connection
handle exists (the open-handle count is 1 exactly when `ipcConn` is set, 0
otherwise), and whenever a live connection exists, `currentClientID` equals
the protocol identifier it was handshaken with. The claim's other direction
is false: after a game-switch disconnect whose reconnect fails,
`currentClientID` stays non-empty with no live connection (see the
counterexample). -/
theorem session_invariant (nameToID : String → Option String)
    (osRelease : String) (path0 : String) (inputs : List TickInput) :
    ∀ p ∈ runTicks nameToID osRelease ⟨path0, "", none, 0⟩ inputs,
      SessionInv p.1 := by
  apply sessionInv_runTicks
  exact ⟨by simp, by intro cid h; cases h⟩

/-- The two-game catalog used by the loop's concrete traces: "a" resolves to
"1" and "b" to "2". -/
def bridgeCat : String → Option String :=
  populateMap [⟨"1", "a", []⟩, ⟨"2", "b", []⟩]

/-- C1 witness: the state reached by one successful connect tick satisfies
the invariant. -/
theorem session_invariant_witness : SessionInv ⟨"/p", "1", some "1", 1⟩ := by
  refine session_invariant bridgeCat "os" "/p"
    [⟨("a", 7), "", ⟨true, true, none, none⟩, "n1"⟩]
    (⟨"/p", "1", some "1", 1⟩,
     ⟨[⟨0, IpcPayload.handshake ⟨1, "1"⟩⟩,
       ⟨1, IpcPayload.rpc ⟨"SET_ACTIVITY", "n1",
          ⟨7, ⟨"Playing a", "On os", ⟨"default", "a"⟩⟩⟩⟩⟩],
      1, 0⟩) ?_
  decide

/-- C1 counterexample: the claim's "currentClientID non-empty iff a live
connection exists" is false on a reachable trace — connect to game "a", then
switch to "b" with the reconnect dial failing: the game-switch branch closes
the connection without clearing `currentClientID`, leaving a state with
`currentClientID = "1"` and no connection. -/
theorem session_invariant_cex :
    ¬ ∀ p ∈ runTicks bridgeCat "os" ⟨"/p", "", none, 0⟩
        [⟨("a", 7), "", ⟨true, true, none, none⟩, "n1"⟩,
         ⟨("b", 8), "", ⟨false, true, none, none⟩, "n2"⟩],
      ((p.1.currentClientID ≠ "") ↔ (p.1.ipcConn.isSome = true)) := by
  decide

/-- C2: for the tick sequence with detected games [A, A, none, B] (A, B
nonempty, distinct and resolvable, every connect attempt succeeding, socket
path known), the loop makes a connection attempt exactly at tick 1 (connect
A) and tick 4 (connect B), performs a disconnect exactly at tick 3, and at
tick 2 sends only an activity update with no connect attempt. -/
theorem bridge_trace_a_a_none_b (nameToID : String → Option String)
    (osRelease A B path idA idB n1 n2 n3 n4 : String) (pa pb : Int)
    (hA : A ≠ "") (hB : B ≠ "") (hAB : A ≠ B) (hpath : path ≠ "")
    (hresA : nameToID (normalizeGameName A) = some idA)
    (hresB : nameToID (normalizeGameName B) = some idB) :
    (runTicks nameToID osRelease ⟨path, "", none, 0⟩
        [⟨(A, pa), "", ⟨true, true, none, none⟩, n1⟩,
         ⟨(A, pa), "", ⟨true, true, none, none⟩, n2⟩,
         ⟨("", 0), "", ⟨true, true, none, none⟩, n3⟩,
         ⟨(B, pb), "", ⟨true, true, none, none⟩, n4⟩]).map (fun p => p.2)
      = [⟨[⟨0, IpcPayload.handshake ⟨1, resolveClientID nameToID A⟩⟩,
           setActivity A pa osRelease n1], 1, 0⟩,
         ⟨[setActivity A pa osRelease n2], 0, 0⟩,
         ⟨[], 0, 1⟩,
         ⟨[⟨0, IpcPayload.handshake ⟨1, resolveClientID nameToID B⟩⟩,
           setActivity B pb osRelease n4], 1, 0⟩] := by
  have hA' : (A == "") = false := beq_eq_false_iff_ne.mpr hA
  have hB' : (B == "") = false := beq_eq_false_iff_ne.mpr hB
  have hpath' : (path == "") = false := beq_eq_false_iff_ne.mpr hpath
  simp [runTicks, tick, connectIPC, bne, hA', hB', hpath']

/-- C2 witness: the trace at A = "a", B = "b" over the two-game catalog. -/
theorem bridge_trace_a_a_none_b_witness :
    (runTicks bridgeCat "os" ⟨"/p", "", none, 0⟩
        [⟨("a", 7), "", ⟨true, true, none, none⟩, "n1"⟩,
         ⟨("a", 7), "", ⟨true, true, none, none⟩, "n2"⟩,
         ⟨("", 0), "", ⟨true, true, none, none⟩, "n3"⟩,
         ⟨("b", 8), "", ⟨true, true, none, none⟩, "n4"⟩]).map (fun p => p.2)
      = [⟨[⟨0, IpcPayload.handshake ⟨1, resolveClientID bridgeCat "a"⟩⟩,
           setActivity "a" 7 "os" "n1"], 1, 0⟩,
         ⟨[setActivity "a" 7 "os" "n2"], 0, 0⟩,
         ⟨[], 0, 1⟩,
         ⟨[⟨0, IpcPayload.handshake ⟨1, resolveClientID bridgeCat "b"⟩⟩,
           setActivity "b" 8 "os" "n4"], 1, 0⟩] :=
  bridge_trace_a_a_none_b bridgeCat "os" "a" "b" "/p" "1" "2" "n1" "n2" "n3" "n4"
    7 8 (by decide) (by decide) (by decide) (by decide) (by decide) (by decide)

/-- C7 (amended): in every tick where a connect attempt is made and fails
(dial or handshake-write failure), the session ends the tick Disconnected,
`currentClientID` is unchanged, exactly one connect attempt is made (no
retry within the tick), and no frame — in particular no activity update — is
sent. `socketPath`, however, is not necessarily unchanged: when it was
unset, the tick's re-probe result is stored (see the counterexample). -/
theorem connect_failure_tick (nameToID : String → Option String)
    (osRelease : String) (inp : TickInput) (s : BridgeState)
    (hgame : inp.detected.1 ≠ "")
    (hfail : (inp.io.dialOk && inp.io.writeOk) = false)
    (hdisc : s.ipcConn = none ∨
      s.currentClientID ≠ resolveClientID nameToID inp.detected.1)
    (hpath : (if s.socketPath == "" then inp.probe else s.socketPath) ≠ "") :
    (tick nameToID osRelease inp s).1.ipcConn = none ∧
    (tick nameToID osRelease inp s).1.currentClientID = s.currentClientID ∧
    (tick nameToID osRelease inp s).1.socketPath
      = (if s.socketPath == "" then inp.probe else s.socketPath) ∧
    (tick nameToID osRelease inp s).2.connectAttempts = 1 ∧
    (tick nameToID osRelease inp s).2.frames = [] := by
  rcases s with ⟨sp, cid0, conn0, oc⟩
  rcases inp with ⟨⟨g, pid⟩, probe, ⟨d, w, rh, rp⟩, nonce⟩
  have hg : (g == "") = false := beq_eq_false_iff_ne.mpr hgame
  cases conn0 <;> cases d <;> cases w <;>
    simp_all [tick, connectIPC, bne]

/-- C7 witness: a dial failure from a disconnected session with an unset
socket path. -/
theorem connect_failure_tick_witness :
    (tick bridgeCat "os" ⟨("a", 7), "/p", ⟨false, true, none, none⟩, "n"⟩
        ⟨"", "", none, 0⟩).1.ipcConn = none ∧
    (tick bridgeCat "os" ⟨("a", 7), "/p", ⟨false, true, none, none⟩, "n"⟩
        ⟨"", "", none, 0⟩).1.currentClientID = "" ∧
    (tick bridgeCat "os" ⟨("a", 7), "/p", ⟨false, true, none, none⟩, "n"⟩
        ⟨"", "", none, 0⟩).1.socketPath
      = (if ("" : String) == "" then "/p" else "") ∧
    (tick bridgeCat "os" ⟨("a", 7), "/p", ⟨false, true, none, none⟩, "n"⟩
        ⟨"", "", none, 0⟩).2.connectAttempts = 1 ∧
    (tick bridgeCat "os" ⟨("a", 7), "/p", ⟨false, true, none, none⟩, "n"⟩
        ⟨"", "", none, 0⟩).2.frames = [] :=
  connect_failure_tick bridgeCat "os"
    ⟨("a", 7), "/p", ⟨false, true, none, none⟩, "n"⟩ ⟨"", "", none, 0⟩
    (by decide) (by decide) (Or.inl rfl) (by decide)

/-- C7 counterexample: a tick whose single connect attempt fails can still
change the Session — when `socketPath` was unset, the re-probe result is
stored — so "state otherwise unchanged" is false as claimed. -/
theorem connect_failure_tick_cex :
    (tick bridgeCat "os" ⟨("a", 7), "/p", ⟨false, true, none, none⟩, "n"⟩
        ⟨"", "", none, 0⟩).2.connectAttempts = 1 ∧
    (tick bridgeCat "os" ⟨("a", 7), "/p", ⟨false, true, none, none⟩, "n"⟩
        ⟨"", "", none, 0⟩).1.ipcConn = none ∧
    (tick bridgeCat "os" ⟨("a", 7), "/p", ⟨false, true, none, none⟩, "n"⟩
        ⟨"", "", none, 0⟩).1 ≠ ⟨"", "", none, 0⟩ := by
  refine ⟨by decide, by decide, ?_⟩
  decide
